import Mathlib

/-!
Verification of the pyFRI binding layer (`src/pyFRI/src/wrapper.cpp`) against its
natural-language specification.

The wrapper exposes the KUKA FRI client SDK to Python.  Pure data-shape logic
(the numpy-array shape checks on `LBRCommand` mutators, the unconditionally
throwing Cartesian getters/setters, the double-to-float conversion in the
`LBRState` joint-array getters) is embedded directly from the C++ source.
Components of the system whose code is not part of the repository checkout
(the session state machine and cyclic step loop of `ClientApplication`, and the
command codec) are modelled from the specification, as marked on each such
definition.

Machine doubles are modelled as exact rationals; the C `(float)` cast is
modelled as round-to-nearest onto a 24-bit significand (`f32cast`).
-/

/-- Joint count of the reference manipulator, `KUKA::FRI::LBRState::NUMBER_OF_JOINTS`
(7 for the LBR iiwa). -/
def NUMBER_OF_JOINTS : Nat := 7

/-- Model of a numpy array as marshalled through pybind11: a shape vector and the
flat data buffer, whose length is the product of the dimensions. -/
structure NpArray where
  shape : List Nat
  data : List ℚ
  size_eq : data.length = shape.prod

/-- Model of the C cast `(float)d` applied to a double `d` (wrapper.cpp lines
176-177 and the four analogous loops): round-to-nearest onto a significand of
at most 24 bits.  Doubles are modelled as exact rationals; ties round half-up
and the exponent range is unbounded (the claims only concern in-range values). -/
def f32cast (q : ℚ) : ℚ :=
  if q = 0 then 0
  else
    ((round (q / (2 : ℚ) ^ (Int.log 2 |q| - 23)) : ℤ) : ℚ) *
      (2 : ℚ) ^ (Int.log 2 |q| - 23)

/-- Model of `KUKA::FRI::LBRState`: the underlying monitoring message carries one
double buffer of `NUMBER_OF_JOINTS` entries per joint-indexed quantity. -/
structure LBRState where
  measuredJointPositionData : Fin NUMBER_OF_JOINTS → ℚ
  measuredTorqueData : Fin NUMBER_OF_JOINTS → ℚ
  commandedTorqueData : Fin NUMBER_OF_JOINTS → ℚ
  externalTorqueData : Fin NUMBER_OF_JOINTS → ℚ
  ipoJointPositionData : Fin NUMBER_OF_JOINTS → ℚ

/-- wrapper.cpp lines 165-181: copy `NUMBER_OF_JOINTS` doubles out of the state,
cast each to float, return a rank-1 float array of length `NUMBER_OF_JOINTS`. -/
def getMeasuredJointPosition (s : LBRState) : NpArray :=
  { shape := [NUMBER_OF_JOINTS]
    data := List.ofFn fun i : Fin NUMBER_OF_JOINTS => f32cast (s.measuredJointPositionData i)
    size_eq := by simp [NUMBER_OF_JOINTS] }

/-- wrapper.cpp lines 182-198: same loop for the measured torque. -/
def getMeasuredTorque (s : LBRState) : NpArray :=
  { shape := [NUMBER_OF_JOINTS]
    data := List.ofFn fun i : Fin NUMBER_OF_JOINTS => f32cast (s.measuredTorqueData i)
    size_eq := by simp [NUMBER_OF_JOINTS] }

/-- wrapper.cpp lines 199-215: same loop for the commanded torque. -/
def getCommandedTorque (s : LBRState) : NpArray :=
  { shape := [NUMBER_OF_JOINTS]
    data := List.ofFn fun i : Fin NUMBER_OF_JOINTS => f32cast (s.commandedTorqueData i)
    size_eq := by simp [NUMBER_OF_JOINTS] }

/-- wrapper.cpp lines 216-232: same loop for the external torque. -/
def getExternalTorque (s : LBRState) : NpArray :=
  { shape := [NUMBER_OF_JOINTS]
    data := List.ofFn fun i : Fin NUMBER_OF_JOINTS => f32cast (s.externalTorqueData i)
    size_eq := by simp [NUMBER_OF_JOINTS] }

/-- wrapper.cpp lines 233-249: same loop for the interpolated joint position. -/
def getIpoJointPosition (s : LBRState) : NpArray :=
  { shape := [NUMBER_OF_JOINTS]
    data := List.ofFn fun i : Fin NUMBER_OF_JOINTS => f32cast (s.ipoJointPositionData i)
    size_eq := by simp [NUMBER_OF_JOINTS] }

/-- wrapper.cpp lines 292-296: unconditionally throws a `std::runtime_error`. -/
def getMeasuredCartesianPoseAsMatrix (_s : LBRState) : Except String NpArray :=
  .error "getMeasuredCartesianPoseAsMatrix is not yet exposed (use .getMeasuredCartesianPose instead)."

/-- wrapper.cpp lines 297-303: unconditionally throws a `std::runtime_error`. -/
def getIpoCartesianPose (_s : LBRState) : Except String NpArray :=
  .error "getIpoCartesianPose is not yet exposed."

/-- wrapper.cpp lines 304-310: unconditionally throws a `std::runtime_error`. -/
def getIpoCartesianPoseAsMatrix (_s : LBRState) : Except String NpArray :=
  .error "getIpoCartesianPoseAsMatrix is not yet exposed."

/-- wrapper.cpp lines 313-319: unconditionally throws a `std::runtime_error`. -/
def getIpoRedundancyValue (_s : LBRState) : Except String ℚ :=
  .error "getIpoRedundancyValue is not yet exposed."

/-- Model of `KUKA::FRI::LBRCommand`: per-cycle command with optional motion
fields (spec §3); a field is `some` once the corresponding setter stored it. -/
structure LBRCommand where
  jointPosition : Option (List ℚ)
  wrench : Option (List ℚ)
  torque : Option (List ℚ)
  cartesianPose : Option (List ℚ)
deriving DecidableEq

/-- Freshly constructed command (`py::init<>`), no field populated. -/
def emptyLBRCommand : LBRCommand :=
  { jointPosition := none, wrench := none, torque := none, cartesianPose := none }

/-- wrapper.cpp lines 327-340: reject unless the array is rank 1 of length
`NUMBER_OF_JOINTS`; otherwise copy `NUMBER_OF_JOINTS` doubles into the command. -/
def setJointPosition (self : LBRCommand) (values : NpArray) : Except String LBRCommand :=
  if values.shape.length ≠ 1 ∨ values.shape.headD 0 ≠ NUMBER_OF_JOINTS then
    .error ("Input array must have shape (" ++ toString NUMBER_OF_JOINTS ++ ",)!")
  else
    .ok { self with jointPosition := some (values.data.take NUMBER_OF_JOINTS) }

/-- wrapper.cpp lines 341-355: reject unless the array is rank 1 of length 6
(`[F_x, F_y, F_z, tau_A, tau_B, tau_C]`); note the error text interpolates
`NUMBER_OF_JOINTS`, not 6.  On success copy 6 doubles into the command. -/
def setWrench (self : LBRCommand) (values : NpArray) : Except String LBRCommand :=
  if values.shape.length ≠ 1 ∨ values.shape.headD 0 ≠ 6 then
    .error ("Input array must have shape (" ++ toString NUMBER_OF_JOINTS ++ ",)!")
  else
    .ok { self with wrench := some (values.data.take 6) }

/-- wrapper.cpp lines 356-369: reject unless the array is rank 1 of length
`NUMBER_OF_JOINTS`; otherwise copy `NUMBER_OF_JOINTS` doubles into the command. -/
def setTorque (self : LBRCommand) (values : NpArray) : Except String LBRCommand :=
  if values.shape.length ≠ 1 ∨ values.shape.headD 0 ≠ NUMBER_OF_JOINTS then
    .error ("Input array must have shape (" ++ toString NUMBER_OF_JOINTS ++ ",)!")
  else
    .ok { self with torque := some (values.data.take NUMBER_OF_JOINTS) }

/-- wrapper.cpp lines 370-376: unconditionally throws a `std::runtime_error`
before looking at the input. -/
def setCartesianPose (_self : LBRCommand) (_values : NpArray) : Except String LBRCommand :=
  .error "setCartesianPose is not yet exposed."

/-- wrapper.cpp lines 377-384: unconditionally throws a `std::runtime_error`
before looking at the input. -/
def setCartesianPoseAsMatrix (_self : LBRCommand) (_values : NpArray) : Except String LBRCommand :=
  .error "setCartesianPoseAsMatrix is not yet exposed."

/-- Session lifecycle states, `KUKA::FRI::ESessionState` (wrapper.cpp lines 74-80). -/
inductive ESessionState
  | IDLE
  | MONITORING_WAIT
  | MONITORING_READY
  | COMMANDING_WAIT
  | COMMANDING_ACTIVE
deriving DecidableEq

/-- User lifecycle callbacks of the `LBRClient` interface (wrapper.cpp lines 21-38). -/
inductive UserCallback
  | monitor
  | waitForCommand
  | command
deriving DecidableEq

/-- Modelled from the spec: the `callbackFor` mapping of §4.1 — the session state
machine selects `monitor` for both monitoring states, `waitForCommand` for
`COMMANDING_WAIT`, `command` for `COMMANDING_ACTIVE`, and no user callback for
`IDLE`.  (The dispatching code of `ClientApplication` is not part of src/;
only the pure-virtual callback surface, wrapper.cpp lines 21-38, is.) -/
def callbackFor : ESessionState → Option UserCallback
  | .IDLE => none
  | .MONITORING_WAIT => some .monitor
  | .MONITORING_READY => some .monitor
  | .COMMANDING_WAIT => some .waitForCommand
  | .COMMANDING_ACTIVE => some .command

/-- Modelled from the spec: `SessionStateMachine.advance` (§4.1).  Compares the
newly decoded state against the held state; when they differ it fires
`onStateChange(old, new)` exactly once and updates the held state.  Returns the
new held state, the fired events, and the selected callback. -/
def advance (cur dec : ESessionState) :
    ESessionState × List (ESessionState × ESessionState) × Option UserCallback :=
  if dec = cur then (cur, [], callbackFor cur)
  else (dec, [(cur, dec)], callbackFor dec)

/-- Modelled from the spec: feeding a whole sequence of decoded session states
through `advance`, collecting the `onStateChange` events in order and the
callback selected on each cycle. -/
def runMachine (cur : ESessionState) :
    List ESessionState → List (ESessionState × ESessionState) × List (Option UserCallback)
  | [] => ([], [])
  | s :: rest =>
    let step1 := advance cur s
    let rest1 := runMachine step1.1 rest
    (step1.2.1 ++ rest1.1, step1.2.2 :: rest1.2)

/-- The adjacent differing pairs of a sequence of session states, in order —
the specification's description of the emitted `onStateChange` events. -/
def adjacentDifferingPairs : List ESessionState → List (ESessionState × ESessionState)
  | a :: b :: rest =>
    if a = b then adjacentDifferingPairs (b :: rest)
    else (a, b) :: adjacentDifferingPairs (b :: rest)
  | _ => []

/-- Client command modes, `KUKA::FRI::EClientCommandMode` for protocol major
version 2 (wrapper.cpp lines 121-131). -/
inductive EClientCommandMode
  | NO_COMMAND_MODE
  | WRENCH
  | TORQUE
  | JOINT_POSITION
  | CARTESIAN_POSE
deriving DecidableEq

/-- Length of the fixed Cartesian pose encoding (3 translations + 4 quaternion
components in protocol version 2). -/
def POSE_LENGTH : Nat := 7

/-- Modelled from the spec: a command datagram (§4.3) — the codec emits exactly
the fields legal for the active mode and zeroes/omits the rest.  Numeric values
travel as doubles (exact rationals in the model), so no precision is lost. -/
structure CommandMessage where
  jointPositionField : List ℚ
  wrenchField : List ℚ
  torqueField : List ℚ
  cartesianPoseField : List ℚ
deriving DecidableEq

/-- All-zero command message, the safe default payload. -/
def zeroCommandMessage : CommandMessage :=
  { jointPositionField := List.replicate NUMBER_OF_JOINTS 0
    wrenchField := List.replicate 6 0
    torqueField := List.replicate NUMBER_OF_JOINTS 0
    cartesianPoseField := List.replicate POSE_LENGTH 0 }

/-- Modelled from the spec: `StateCodec.encode` (§4.3) — emit exactly the fields
legal for the given mode, zero the rest. -/
def encodeCommand (cmd : LBRCommand) (mode : EClientCommandMode) : CommandMessage :=
  match mode with
  | .NO_COMMAND_MODE => zeroCommandMessage
  | .JOINT_POSITION =>
    { zeroCommandMessage with
        jointPositionField := cmd.jointPosition.getD (List.replicate NUMBER_OF_JOINTS 0) }
  | .WRENCH =>
    { zeroCommandMessage with wrenchField := cmd.wrench.getD (List.replicate 6 0) }
  | .TORQUE =>
    { zeroCommandMessage with
        torqueField := cmd.torque.getD (List.replicate NUMBER_OF_JOINTS 0) }
  | .CARTESIAN_POSE =>
    { zeroCommandMessage with
        cartesianPoseField := cmd.cartesianPose.getD (List.replicate POSE_LENGTH 0) }

/-- Modelled from the spec: decoding a command datagram back into the command
record for the given mode — only the mode-legal field is populated. -/
def decodeCommand (msg : CommandMessage) (mode : EClientCommandMode) : LBRCommand :=
  match mode with
  | .NO_COMMAND_MODE => emptyLBRCommand
  | .JOINT_POSITION => { emptyLBRCommand with jointPosition := some msg.jointPositionField }
  | .WRENCH => { emptyLBRCommand with wrench := some msg.wrenchField }
  | .TORQUE => { emptyLBRCommand with torque := some msg.torqueField }
  | .CARTESIAN_POSE => { emptyLBRCommand with cartesianPose := some msg.cartesianPoseField }

/-- A command built purely from the fields legal for the given mode (spec §4.3
and §4.4): exactly the mode's field is populated, all others are absent. -/
def modeLegalCommand (cmd : LBRCommand) (mode : EClientCommandMode) : Prop :=
  match mode with
  | .NO_COMMAND_MODE => cmd = emptyLBRCommand
  | .JOINT_POSITION => ∃ v, cmd = { emptyLBRCommand with jointPosition := some v }
  | .WRENCH => ∃ v, cmd = { emptyLBRCommand with wrench := some v }
  | .TORQUE => ∃ v, cmd = { emptyLBRCommand with torque := some v }
  | .CARTESIAN_POSE => ∃ v, cmd = { emptyLBRCommand with cartesianPose := some v }

/-- Validation failures of §4.4. -/
inductive ValidationError
  | shapeMismatch (expected actual : Nat)
  | modeMismatch
deriving DecidableEq

/-- Modelled from the spec: `CommandValidator.validate` (§4.4) — the populated
fields must be exactly those the active mode requires and each array must have
the mode-mandated length; a length mismatch yields `shapeMismatch` and a wrong
set of populated fields yields `modeMismatch`. -/
def validate (cmd : LBRCommand) (mode : EClientCommandMode) : Except ValidationError Unit :=
  match mode with
  | .NO_COMMAND_MODE =>
    if cmd = emptyLBRCommand then .ok () else .error .modeMismatch
  | .JOINT_POSITION =>
    match cmd.jointPosition, cmd.wrench, cmd.torque, cmd.cartesianPose with
    | some v, none, none, none =>
      if v.length = NUMBER_OF_JOINTS then .ok ()
      else .error (.shapeMismatch NUMBER_OF_JOINTS v.length)
    | _, _, _, _ => .error .modeMismatch
  | .WRENCH =>
    match cmd.jointPosition, cmd.wrench, cmd.torque, cmd.cartesianPose with
    | none, some v, none, none =>
      if v.length = 6 then .ok () else .error (.shapeMismatch 6 v.length)
    | _, _, _, _ => .error .modeMismatch
  | .TORQUE =>
    match cmd.jointPosition, cmd.wrench, cmd.torque, cmd.cartesianPose with
    | none, none, some v, none =>
      if v.length = NUMBER_OF_JOINTS then .ok ()
      else .error (.shapeMismatch NUMBER_OF_JOINTS v.length)
    | _, _, _, _ => .error .modeMismatch
  | .CARTESIAN_POSE =>
    match cmd.jointPosition, cmd.wrench, cmd.torque, cmd.cartesianPose with
    | none, none, none, some v =>
      if v.length = POSE_LENGTH then .ok ()
      else .error (.shapeMismatch POSE_LENGTH v.length)
    | _, _, _, _ => .error .modeMismatch

/-- Modelled from the spec: the observable outcome of one receive attempt —
nothing within the timeout, a message the codec rejects, or a decoded session
state together with the command the selected user callback wrote this cycle
(§4.5). -/
inductive CycleInput
  | timeout
  | badMessage
  | message (s : ESessionState) (cmd : LBRCommand)

/-- Modelled from the spec: the internal per-connection bookkeeping of the cyclic
controller (§4.5, §7) — held session state, cumulative anomaly counters, the
last valid encoded command kept as fallback, and the disconnect flag. -/
structure AppState where
  session : ESessionState
  decodeFailures : Nat
  validationFailures : Nat
  missedCycles : Nat
  lastCommand : CommandMessage
  disconnected : Bool
  decodeFailureLimit : Nat

/-- Modelled from the spec: whether the session remains usable — false once
`IDLE` persists after an explicit disconnect or unrecoverable decode failures
exceed the configured threshold (§4.5). -/
def sessionUsable (st : AppState) : Bool :=
  !(st.disconnected && st.session == ESessionState.IDLE) &&
    decide (st.decodeFailures ≤ st.decodeFailureLimit)

/-- Modelled from the spec: decoding stage of one cycle — `none` when the
receive timed out (no message this cycle), otherwise the codec's `Except`
result (`DecodeError` on a malformed message, per §4.3). -/
def decodeStage : CycleInput → Option (Except String (ESessionState × LBRCommand))
  | .timeout => none
  | .badMessage => some (.error "DecodeError: malformed message")
  | .message s cmd => some (.ok (s, cmd))

/-- Modelled from the spec: `step()` — one full cycle of the cyclic controller
(§4.5) under the propagation policy of §7.  The decode and validation stages
produce `Except` values internally, and every anomaly is caught here and
recorded in a counter: a timeout skips the cycle, a decode failure skips the
cycle and increments `decodeFailures`, a validation failure keeps the previous
valid command as fallback and increments `validationFailures`.  The only
signal crossing the boundary is the returned usability flag. -/
def step (st : AppState) (input : CycleInput) (mode : EClientCommandMode) :
    Except String (Bool × AppState) :=
  match decodeStage input with
  | none =>
    let st' := { st with missedCycles := st.missedCycles + 1 }
    .ok (sessionUsable st', st')
  | some (.error _e) =>
    let st' := { st with decodeFailures := st.decodeFailures + 1 }
    .ok (sessionUsable st', st')
  | some (.ok (s, cmd)) =>
    let next := (advance st.session s).1
    match validate cmd mode with
    | .error _e =>
      let st' := { st with session := next,
                           validationFailures := st.validationFailures + 1 }
      .ok (sessionUsable st', st')
    | .ok _ =>
      let st' := { st with session := next, lastCommand := encodeCommand cmd mode }
      .ok (sessionUsable st', st')

/-- A rank/leading-dimension pair passes the wrapper's shape test exactly when
the shape vector is the singleton of the required length. -/
lemma shape_cond_iff (l : List Nat) (n : Nat) :
    (l.length = 1 ∧ l.headD 0 = n) ↔ l = [n] := by
  cases l with
  | nil => simp
  | cons a t =>
    cases t with
    | nil => simp
    | cons b t => simp

/-- Reading an index below `n` out of `List.ofFn` recovers the generating
function. -/
lemma getD_ofFn {n : Nat} (f : Fin n → ℚ) (i : Fin n) :
    (List.ofFn f).getD (i : Nat) 0 = f i := by
  rw [List.getD_eq_getElem?_getD]
  simp [List.getElem?_ofFn, i.isLt]

/-- C5: every joint-indexed array accessor on the robot state returns an array
whose length equals the fixed joint count `NUMBER_OF_JOINTS`, which is 7 for
the reference manipulator. -/
theorem state_joint_arrays_length :
    ∀ s : LBRState,
      NUMBER_OF_JOINTS = 7
      ∧ (getMeasuredJointPosition s).shape = [NUMBER_OF_JOINTS]
      ∧ (getMeasuredJointPosition s).data.length = NUMBER_OF_JOINTS
      ∧ (getMeasuredTorque s).shape = [NUMBER_OF_JOINTS]
      ∧ (getMeasuredTorque s).data.length = NUMBER_OF_JOINTS
      ∧ (getCommandedTorque s).shape = [NUMBER_OF_JOINTS]
      ∧ (getCommandedTorque s).data.length = NUMBER_OF_JOINTS
      ∧ (getExternalTorque s).shape = [NUMBER_OF_JOINTS]
      ∧ (getExternalTorque s).data.length = NUMBER_OF_JOINTS
      ∧ (getIpoJointPosition s).shape = [NUMBER_OF_JOINTS]
      ∧ (getIpoJointPosition s).data.length = NUMBER_OF_JOINTS := by
  intro s
  refine ⟨rfl, rfl, ?_, rfl, ?_, rfl, ?_, rfl, ?_, rfl, ?_⟩ <;>
    simp [getMeasuredJointPosition, getMeasuredTorque, getCommandedTorque,
      getExternalTorque, getIpoJointPosition, NUMBER_OF_JOINTS]

/-- C7: the Cartesian-overlay-related state getters are unimplemented — for
every robot state each of them raises a runtime error instead of returning a
value. -/
theorem cartesian_getters_unimplemented :
    ∀ s : LBRState,
      getMeasuredCartesianPoseAsMatrix s =
        Except.error "getMeasuredCartesianPoseAsMatrix is not yet exposed (use .getMeasuredCartesianPose instead)."
      ∧ getIpoCartesianPose s = Except.error "getIpoCartesianPose is not yet exposed."
      ∧ getIpoCartesianPoseAsMatrix s =
          Except.error "getIpoCartesianPoseAsMatrix is not yet exposed."
      ∧ getIpoRedundancyValue s = Except.error "getIpoRedundancyValue is not yet exposed." :=
  fun _ => ⟨rfl, rfl, rfl, rfl⟩

/-- A well-shaped Cartesian pose input: identity pose as 3 translations plus a
unit quaternion, matching the fixed 7-value pose encoding. -/
def wellShapedPose : NpArray :=
  { shape := [POSE_LENGTH], data := [0, 0, 0, 1, 0, 0, 0], size_eq := rfl }

/-- C6 counterexample: at the explicitly well-shaped pose input
`wellShapedPose`, the set-Cartesian-pose mutator raises instead of storing the
pose, so it is not the case that it fails only on shape mismatches and
succeeds on some well-shaped input. -/
theorem setCartesianPose_rejects_wellShapedPose :
    setCartesianPose emptyLBRCommand wellShapedPose =
      Except.error "setCartesianPose is not yet exposed." := rfl

/-- C6 amended: the set-Cartesian-pose mutators are not yet exposed — every
call raises a runtime error regardless of the input's shape, and no input is
ever stored. -/
theorem setCartesianPose_always_errors :
    ∀ (cmd : LBRCommand) (arr : NpArray),
      setCartesianPose cmd arr = Except.error "setCartesianPose is not yet exposed."
      ∧ setCartesianPoseAsMatrix cmd arr =
          Except.error "setCartesianPoseAsMatrix is not yet exposed." :=
  fun _ _ => ⟨rfl, rfl⟩

/-- C2: set-joint-position and set-torque succeed exactly on rank-1 arrays of
length `NUMBER_OF_JOINTS` (7); a well-shaped input is stored verbatim (no
truncation or padding) and anything else raises the shape error. -/
theorem setJointPosition_setTorque_shape_check :
    ∀ (cmd : LBRCommand) (arr : NpArray),
      NUMBER_OF_JOINTS = 7
      ∧ ((∃ c, setJointPosition cmd arr = Except.ok c) ↔ arr.shape = [NUMBER_OF_JOINTS])
      ∧ ((∃ c, setTorque cmd arr = Except.ok c) ↔ arr.shape = [NUMBER_OF_JOINTS])
      ∧ (arr.shape = [NUMBER_OF_JOINTS] →
          setJointPosition cmd arr = Except.ok { cmd with jointPosition := some arr.data }
          ∧ setTorque cmd arr = Except.ok { cmd with torque := some arr.data })
      ∧ (arr.shape ≠ [NUMBER_OF_JOINTS] →
          setJointPosition cmd arr =
            Except.error ("Input array must have shape (" ++ toString NUMBER_OF_JOINTS ++ ",)!")
          ∧ setTorque cmd arr =
            Except.error ("Input array must have shape (" ++ toString NUMBER_OF_JOINTS ++ ",)!")) := by
  intro cmd arr
  by_cases h : arr.shape = [NUMBER_OF_JOINTS]
  · have hcond : ¬(arr.shape.length ≠ 1 ∨ arr.shape.headD 0 ≠ NUMBER_OF_JOINTS) := by
      rw [h]; simp
    have hlen : arr.data.length = NUMBER_OF_JOINTS := by
      have hs := arr.size_eq
      rw [h] at hs
      simpa using hs
    have htake : arr.data.take NUMBER_OF_JOINTS = arr.data :=
      List.take_of_length_le (le_of_eq hlen)
    have hjp : setJointPosition cmd arr = Except.ok { cmd with jointPosition := some arr.data } := by
      unfold setJointPosition
      rw [if_neg hcond, htake]
    have htq : setTorque cmd arr = Except.ok { cmd with torque := some arr.data } := by
      unfold setTorque
      rw [if_neg hcond, htake]
    exact ⟨rfl, ⟨fun _ => h, fun _ => ⟨_, hjp⟩⟩, ⟨fun _ => h, fun _ => ⟨_, htq⟩⟩,
      fun _ => ⟨hjp, htq⟩, fun hne => absurd h hne⟩
  · have hcond : arr.shape.length ≠ 1 ∨ arr.shape.headD 0 ≠ NUMBER_OF_JOINTS := by
      by_contra hc
      push_neg at hc
      exact h ((shape_cond_iff _ _).mp hc)
    have hjp : setJointPosition cmd arr =
        Except.error ("Input array must have shape (" ++ toString NUMBER_OF_JOINTS ++ ",)!") := by
      unfold setJointPosition
      rw [if_pos hcond]
    have htq : setTorque cmd arr =
        Except.error ("Input array must have shape (" ++ toString NUMBER_OF_JOINTS ++ ",)!") := by
      unfold setTorque
      rw [if_pos hcond]
    refine ⟨rfl, ⟨fun hc => ?_, fun hh => absurd hh h⟩, ⟨fun hc => ?_, fun hh => absurd hh h⟩,
      fun hh => absurd hh h, fun _ => ⟨hjp, htq⟩⟩
    · obtain ⟨c, hc⟩ := hc
      rw [hjp] at hc
      exact Except.noConfusion hc
    · obtain ⟨c, hc⟩ := hc
      rw [htq] at hc
      exact Except.noConfusion hc

/-- A rank-1 array of 7 values. -/
def arr7 : NpArray :=
  { shape := [NUMBER_OF_JOINTS], data := [1, 2, 3, 4, 5, 6, 7], size_eq := rfl }

/-- A rank-1 array of 6 values. -/
def arr6 : NpArray :=
  { shape := [6], data := [1, 2, 3, 4, 5, 6], size_eq := rfl }

/-- C2 witness: a 7-length torque array is accepted and stored verbatim while a
6-length one is rejected with the shape error. -/
theorem setJointPosition_setTorque_shape_check_witness :
    setTorque emptyLBRCommand arr7 = Except.ok { emptyLBRCommand with torque := some arr7.data }
    ∧ setTorque emptyLBRCommand arr6 =
        Except.error ("Input array must have shape (" ++ toString NUMBER_OF_JOINTS ++ ",)!") :=
  ⟨((setJointPosition_setTorque_shape_check emptyLBRCommand arr7).2.2.2.1 rfl).2,
   ((setJointPosition_setTorque_shape_check emptyLBRCommand arr6).2.2.2.2 (by decide)).2⟩

/-- C3: set-wrench succeeds exactly on rank-1 arrays of length 6; a well-shaped
input is stored verbatim (no truncation or padding) and anything else raises a
shape error. -/
theorem setWrench_shape_check :
    ∀ (cmd : LBRCommand) (arr : NpArray),
      ((∃ c, setWrench cmd arr = Except.ok c) ↔ arr.shape = [6])
      ∧ (arr.shape = [6] → setWrench cmd arr = Except.ok { cmd with wrench := some arr.data })
      ∧ (arr.shape ≠ [6] → ∃ e, setWrench cmd arr = Except.error e) := by
  intro cmd arr
  by_cases h : arr.shape = [6]
  · have hcond : ¬(arr.shape.length ≠ 1 ∨ arr.shape.headD 0 ≠ 6) := by
      rw [h]; simp
    have hlen : arr.data.length = 6 := by
      have hs := arr.size_eq
      rw [h] at hs
      simpa using hs
    have htake : arr.data.take 6 = arr.data :=
      List.take_of_length_le (le_of_eq hlen)
    have hw : setWrench cmd arr = Except.ok { cmd with wrench := some arr.data } := by
      unfold setWrench
      rw [if_neg hcond, htake]
    exact ⟨⟨fun _ => h, fun _ => ⟨_, hw⟩⟩, fun _ => hw, fun hne => absurd h hne⟩
  · have hcond : arr.shape.length ≠ 1 ∨ arr.shape.headD 0 ≠ 6 := by
      by_contra hc
      push_neg at hc
      exact h ((shape_cond_iff _ _).mp hc)
    have hw : setWrench cmd arr =
        Except.error ("Input array must have shape (" ++ toString NUMBER_OF_JOINTS ++ ",)!") := by
      unfold setWrench
      rw [if_pos hcond]
    refine ⟨⟨fun hc => ?_, fun hh => absurd hh h⟩, fun hh => absurd hh h, fun _ => ⟨_, hw⟩⟩
    obtain ⟨c, hc⟩ := hc
    rw [hw] at hc
    exact Except.noConfusion hc

/-- C3 witness: a 6-length wrench array is accepted and stored verbatim. -/
theorem setWrench_shape_check_witness :
    setWrench emptyLBRCommand arr6 = Except.ok { emptyLBRCommand with wrench := some arr6.data } :=
  (setWrench_shape_check emptyLBRCommand arr6).2.1 rfl

/-- C10: whenever set-wrench rejects an input (any shape other than a rank-1
length-6 array), the raised message states the required shape as `(7,)` — the
joint count — rather than the actually required length 6. -/
theorem setWrench_error_message_reports_seven :
    ∀ (cmd : LBRCommand) (arr : NpArray),
      arr.shape ≠ [6] →
        setWrench cmd arr = Except.error "Input array must have shape (7,)!" := by
  intro cmd arr h
  have hcond : arr.shape.length ≠ 1 ∨ arr.shape.headD 0 ≠ 6 := by
    by_contra hc
    push_neg at hc
    exact h ((shape_cond_iff _ _).mp hc)
  have hmsg : ("Input array must have shape (" ++ toString NUMBER_OF_JOINTS ++ ",)!") =
      "Input array must have shape (7,)!" := by decide
  unfold setWrench
  rw [if_pos hcond, hmsg]

/-- C10 witness: rejecting a 7-length wrench array produces the message `(7,)`. -/
theorem setWrench_error_message_reports_seven_witness :
    setWrench emptyLBRCommand arr7 = Except.error "Input array must have shape (7,)!" :=
  setWrench_error_message_reports_seven emptyLBRCommand arr7 (by decide)

/-- C1: for every sequence of decoded session states fed to the session state
machine, the emitted `onStateChange` events are exactly the adjacent differing
pairs of the held-state sequence in order, and the callback selected for each
held state follows the fixed mapping (`MONITORING_WAIT`/`MONITORING_READY` →
`monitor`, `COMMANDING_WAIT` → `waitForCommand`, `COMMANDING_ACTIVE` →
`command`, `IDLE` → no user callback). -/
theorem sessionMachine_events_and_callbacks :
    ∀ (init : ESessionState) (xs : List ESessionState),
      (runMachine init xs).1 = adjacentDifferingPairs (init :: xs)
      ∧ (runMachine init xs).2 = xs.map callbackFor
      ∧ callbackFor .MONITORING_WAIT = some .monitor
      ∧ callbackFor .MONITORING_READY = some .monitor
      ∧ callbackFor .COMMANDING_WAIT = some .waitForCommand
      ∧ callbackFor .COMMANDING_ACTIVE = some .command
      ∧ callbackFor .IDLE = none := by
  have key : ∀ (xs : List ESessionState) (init : ESessionState),
      (runMachine init xs).1 = adjacentDifferingPairs (init :: xs)
      ∧ (runMachine init xs).2 = xs.map callbackFor := by
    intro xs
    induction xs with
    | nil => exact fun init => ⟨rfl, rfl⟩
    | cons s rest ih =>
      intro init
      by_cases hds : s = init
      · subst hds
        constructor
        · simp [runMachine, advance, adjacentDifferingPairs, (ih s).1]
        · simp [runMachine, advance, (ih s).2]
      · have hsd : ¬ init = s := fun he => hds he.symm
        constructor
        · simp [runMachine, advance, adjacentDifferingPairs, hds, hsd, (ih s).1]
        · simp [runMachine, advance, hds, (ih s).2]
  exact fun init xs => ⟨(key xs init).1, (key xs init).2, rfl, rfl, rfl, rfl, rfl⟩

/-- C4: decoding the encoding of a command built purely from mode-legal fields
reproduces the same field values; numeric values travel as doubles (exact
rationals in the model), so nothing in range is truncated. -/
theorem command_codec_round_trip :
    ∀ (cmd : LBRCommand) (mode : EClientCommandMode),
      modeLegalCommand cmd mode →
        decodeCommand (encodeCommand cmd mode) mode = cmd := by
  intro cmd mode hlegal
  cases mode with
  | NO_COMMAND_MODE => rw [hlegal]; rfl
  | JOINT_POSITION => obtain ⟨v, rfl⟩ := hlegal; rfl
  | WRENCH => obtain ⟨v, rfl⟩ := hlegal; rfl
  | TORQUE => obtain ⟨v, rfl⟩ := hlegal; rfl
  | CARTESIAN_POSE => obtain ⟨v, rfl⟩ := hlegal; rfl

/-- C4 witness: a `TORQUE`-mode command carrying a 7-length torque array and no
other field survives encode-then-decode unchanged. -/
theorem command_codec_round_trip_witness :
    decodeCommand
        (encodeCommand { emptyLBRCommand with torque := some [1, 2, 3, 4, 5, 6, 7] }
          EClientCommandMode.TORQUE)
        EClientCommandMode.TORQUE
      = { emptyLBRCommand with torque := some [1, 2, 3, 4, 5, 6, 7] } :=
  command_codec_round_trip _ EClientCommandMode.TORQUE ⟨[1, 2, 3, 4, 5, 6, 7], rfl⟩

/-- A convenient concrete controller bookkeeping state. -/
def initialAppState : AppState :=
  { session := .IDLE, decodeFailures := 0, validationFailures := 0, missedCycles := 0,
    lastCommand := zeroCommandMessage, disconnected := false, decodeFailureLimit := 3 }

/-- C8: one `step` never propagates a decode or validation anomaly as an
exception across the boundary — it always returns an `ok` result whose boolean
is the usability signal; a decode failure is recorded in the internal counter
with the session unchanged, and a validation failure is recorded in its counter
with the previous valid command kept as fallback. -/
theorem step_never_throws :
    ∀ (st : AppState) (input : CycleInput) (mode : EClientCommandMode),
      (∃ r, step st input mode = Except.ok r)
      ∧ (∀ b st', step st input mode = Except.ok (b, st') → b = sessionUsable st')
      ∧ (step st .badMessage mode =
          Except.ok (sessionUsable { st with decodeFailures := st.decodeFailures + 1 },
            { st with decodeFailures := st.decodeFailures + 1 }))
      ∧ (∀ s cmd err, validate cmd mode = Except.error err →
          step st (.message s cmd) mode =
            Except.ok
              (sessionUsable
                { st with session := (advance st.session s).1,
                          validationFailures := st.validationFailures + 1 },
               { st with session := (advance st.session s).1,
                         validationFailures := st.validationFailures + 1 })) := by
  intro st input mode
  have hbad : step st .badMessage mode =
      Except.ok (sessionUsable { st with decodeFailures := st.decodeFailures + 1 },
        { st with decodeFailures := st.decodeFailures + 1 }) := rfl
  have hval : ∀ s cmd err, validate cmd mode = Except.error err →
      step st (.message s cmd) mode =
        Except.ok
          (sessionUsable
            { st with session := (advance st.session s).1,
                      validationFailures := st.validationFailures + 1 },
           { st with session := (advance st.session s).1,
                     validationFailures := st.validationFailures + 1 }) := by
    intro s cmd err hv
    simp [step, decodeStage, hv]
  have hokv : ∀ s cmd u, validate cmd mode = Except.ok u →
      step st (.message s cmd) mode =
        Except.ok
          (sessionUsable
            { st with session := (advance st.session s).1,
                      lastCommand := encodeCommand cmd mode },
           { st with session := (advance st.session s).1,
                     lastCommand := encodeCommand cmd mode }) := by
    intro s cmd u hv
    simp [step, decodeStage, hv]
  refine ⟨?_, ?_, hbad, hval⟩
  · cases input with
    | timeout => exact ⟨_, rfl⟩
    | badMessage => exact ⟨_, hbad⟩
    | message s cmd =>
      cases hv : validate cmd mode with
      | error e => exact ⟨_, hval s cmd e hv⟩
      | ok u => exact ⟨_, hokv s cmd u hv⟩
  · intro b st' h
    cases input with
    | timeout =>
      simp [step, decodeStage] at h
      rw [← h.1, h.2]
    | badMessage =>
      rw [hbad] at h
      simp only [Except.ok.injEq, Prod.mk.injEq] at h
      rw [← h.1, h.2]
    | message s cmd =>
      cases hv : validate cmd mode with
      | error e =>
        rw [hval s cmd e hv] at h
        simp only [Except.ok.injEq, Prod.mk.injEq] at h
        rw [← h.1, h.2]
      | ok u =>
        rw [hokv s cmd u hv] at h
        simp only [Except.ok.injEq, Prod.mk.injEq] at h
        rw [← h.1, h.2]

/-- C8 witness: a cycle whose callback wrote no torque while the mode is
`TORQUE` fails validation, yet `step` returns an `ok` result that only records
the anomaly. -/
theorem step_never_throws_witness :
    step initialAppState (CycleInput.message ESessionState.MONITORING_WAIT emptyLBRCommand)
        EClientCommandMode.TORQUE =
      Except.ok
        (sessionUsable
          { initialAppState with
              session := (advance initialAppState.session ESessionState.MONITORING_WAIT).1,
              validationFailures := initialAppState.validationFailures + 1 },
         { initialAppState with
             session := (advance initialAppState.session ESessionState.MONITORING_WAIT).1,
             validationFailures := initialAppState.validationFailures + 1 }) :=
  (step_never_throws initialAppState
      (CycleInput.message ESessionState.MONITORING_WAIT emptyLBRCommand)
      EClientCommandMode.TORQUE).2.2.2
    ESessionState.MONITORING_WAIT emptyLBRCommand ValidationError.modeMismatch rfl

/-- Every value produced by the modelled float cast has a significand of at
most 24 bits: it is an integer multiple `m * 2^e` with `|m| ≤ 2^24`. -/
lemma f32cast_significand_bound (q : ℚ) :
    ∃ m e : ℤ, |m| ≤ 2 ^ 24 ∧ f32cast q = (m : ℚ) * (2 : ℚ) ^ e := by
  by_cases hq : q = 0
  · exact ⟨0, 0, by norm_num, by simp [f32cast, hq]⟩
  · refine ⟨round (q / (2 : ℚ) ^ (Int.log 2 |q| - 23)), Int.log 2 |q| - 23, ?_,
      by rw [f32cast, if_neg hq]⟩
    have hu : (0 : ℚ) < (2 : ℚ) ^ (Int.log 2 |q| - 23) := by positivity
    have habs : |q| < (2 : ℚ) ^ (Int.log 2 |q| + 1) := by
      have h := Int.lt_zpow_succ_log_self (b := 2) (by norm_num) |q|
      simpa using h
    have hpow : (2 : ℚ) ^ (Int.log 2 |q| + 1) =
        2 ^ 24 * (2 : ℚ) ^ (Int.log 2 |q| - 23) := by
      rw [← zpow_natCast (2 : ℚ) 24, ← zpow_add₀ (by norm_num : (2 : ℚ) ≠ 0)]
      congr 1
      push_cast
      ring
    have hz : |q / (2 : ℚ) ^ (Int.log 2 |q| - 23)| < 2 ^ 24 := by
      rw [abs_div, abs_of_pos hu, div_lt_iff₀ hu]
      calc |q| < (2 : ℚ) ^ (Int.log 2 |q| + 1) := habs
        _ = 2 ^ 24 * (2 : ℚ) ^ (Int.log 2 |q| - 23) := hpow
    obtain ⟨h1, h2⟩ := abs_lt.mp hz
    rw [abs_le, round_eq]
    constructor
    · apply Int.le_floor.mpr
      push_cast
      linarith
    · have hflt : ⌊q / (2 : ℚ) ^ (Int.log 2 |q| - 23) + 1 / 2⌋ < 2 ^ 24 + 1 := by
        apply Int.floor_lt.mpr
        push_cast
        linarith
      omega

/-- C9: every joint-indexed array accessor returns, at each index, the
underlying double-precision value cast to float (`f32cast`), and every such
cast value carries at most float32 precision — it is `m * 2^e` with
`|m| ≤ 2^24` — even though the protocol transmits doubles. -/
theorem state_getters_single_precision :
    ∀ (s : LBRState) (i : Fin NUMBER_OF_JOINTS),
      (getMeasuredJointPosition s).data.getD (i : Nat) 0 = f32cast (s.measuredJointPositionData i)
      ∧ (getMeasuredTorque s).data.getD (i : Nat) 0 = f32cast (s.measuredTorqueData i)
      ∧ (getCommandedTorque s).data.getD (i : Nat) 0 = f32cast (s.commandedTorqueData i)
      ∧ (getExternalTorque s).data.getD (i : Nat) 0 = f32cast (s.externalTorqueData i)
      ∧ (getIpoJointPosition s).data.getD (i : Nat) 0 = f32cast (s.ipoJointPositionData i)
      ∧ ∀ q : ℚ, ∃ m e : ℤ, |m| ≤ 2 ^ 24 ∧ f32cast q = (m : ℚ) * (2 : ℚ) ^ e
  := by
  intro s i
  refine ⟨?_, ?_, ?_, ?_, ?_, f32cast_significand_bound⟩ <;>
  · simp only [getMeasuredJointPosition, getMeasuredTorque, getCommandedTorque,
      getExternalTorque, getIpoJointPosition]
    exact getD_ofFn _ i
